import Mathlib

/-!
Shallow embedding of the Mapepire n8n node's execution core
(src/nodes/Mapepire/Mapepire.node.ts) together with the credential
construction it performs.  The embedding models:

* the credential-to-DaemonServer construction (lines 151-158);
* the error normalizer `normalizeError` (lines 162-178);
* the query-option assembly including parameter-JSON handling
  (lines 215-231);
* the SQL result-paging loop (lines 233-240);
* output shaping for aggregate / per-row / CL outputs (lines 242-268);
* the per-item try/catch/finally with session acquisition (`getJob`,
  lines 184-195 and 197-280) and the post-loop shared close
  (lines 282-284).

External effects (the `@ibm/mapepire-js` client, `JSON.parse`) are
modelled as oracles carried by each work item: the pages the client
would deliver, the error it would throw, and the outcome `JSON.parse`
would produce on the configured parameter text.  JavaScript truthiness
(empty string falsy, `undefined` falsy, `||` and `??` semantics) is
translated explicitly at each use site.
-/

/-- JavaScript values as far as the node inspects them: the result of
`JSON.parse`, row data and metadata are all opaque JSON-like values. -/
inductive Json where
  | null
  | bool (b : Bool)
  | num (n : Int)
  | str (s : String)
  | arr (xs : List Json)
  | obj (fields : List (String × Json))

/-- JavaScript `typeof v === 'object'`: true for objects, arrays and
`null` (a well-known JS quirk), false for primitives. -/
def jsTypeofIsObject : Json → Bool
  | .null => true
  | .arr _ => true
  | .obj _ => true
  | _ => false

/-- JavaScript `v === null`. -/
def jsIsNull : Json → Bool
  | .null => true
  | _ => false

/-- A `code` / `sqlcode` field may be a string or a number
(`code?: string | number` in the source). -/
inductive ErrCode where
  | s (v : String)
  | n (v : Int)
deriving DecidableEq

/-- Observable shape of a raw thrown value, as probed by
`normalizeError` (lines 162-170): each optional field is `none` when
the corresponding property is absent (or nullish).  `stringForm` is
what `String(e)` would produce for the value. -/
structure RawError where
  message : Option String
  name : Option String
  code : Option ErrCode
  sqlcode : Option ErrCode
  sqlState : Option String
  stack : Option String
  stringForm : String

/-- Result of `normalizeError` (lines 171-177). -/
structure NormalizedError where
  message : String
  name : Option String
  code : Option ErrCode
  sqlState : Option String
  stack : Option String

/-- Lines 162-178: `normalizeError`.  `err?.message || String(e)` uses
JS truthiness, so an absent OR empty message falls back to the string
form; `err?.code ?? err?.sqlcode` is nullish coalescing, so only an
absent `code` falls through to `sqlcode`. -/
def normalizeError (e : RawError) : NormalizedError :=
  { message :=
      match e.message with
      | some m => if m = "" then e.stringForm else m
      | none => e.stringForm
    name := e.name
    code :=
      match e.code with
      | some c => some c
      | none => e.sqlcode
    sqlState := e.sqlState
    stack := e.stack }

/-- The raw credential material supplied by the host (fields of the
`mapepireApi` credential type; `ca` defaults to the empty string). -/
structure CredentialsInput where
  host : String
  user : String
  password : String
  port : Nat
  ignoreUnauthorized : Bool
  ca : String

/-- The connection record handed to the session client. -/
structure DaemonServer where
  host : String
  user : String
  password : String
  port : Nat
  rejectUnauthorized : Bool
  ca : Option String

/-- Lines 151-158: construction of the `DaemonServer` record.
`rejectUnauthorized` is the plain negation of the ignore toggle and
`credentials.ca ? ... : undefined` maps the (falsy) empty string to an
absent `ca`. -/
def mkDaemonServer (c : CredentialsInput) : DaemonServer :=
  { host := c.host
    user := c.user
    password := c.password
    port := c.port
    rejectUnauthorized := !c.ignoreUnauthorized
    ca := if c.ca = "" then none else some c.ca }

/-- The `outputMode` option (lines 124-135). -/
inductive OutputMode where
  | single
  | perRow
deriving DecidableEq

/-- Oracle for `JSON.parse(parametersJson)`: either it throws a syntax
error carrying a message, or it yields a JSON value. -/
inductive ParseOutcome where
  | parseFail (msg : String)
  | parseOk (v : Json)

/-- The `additionalFields` collection as read per item (lines 200-207).
`parametersJson` conflates an absent value with the empty string (both
falsy at the only use site, line 221).  `parseOutcome` is the oracle
recording what `JSON.parse` would do on that exact text. -/
structure AdditionalFields where
  isTerseResults : Option Bool
  includeMetadata : Option Bool
  reuseConnection : Option Bool
  useParameters : Option Bool
  parametersJson : String
  parseOutcome : ParseOutcome
  queryTimeout : Option Nat
  outputMode : Option OutputMode

/-- One page of a SQL result set as returned by `execute` /
`fetchMore` (fields used at lines 234-245). -/
structure Page where
  data : List Json
  is_done : Bool
  metadata : Json
  update_count : Int

/-- Result of executing a CL command handle (fields used at
lines 260-267). -/
structure ClCmdResult where
  success : Bool
  data : Json
  error : Option String

/-- Behaviour of the session client for one SQL item: either it
delivers pages (first page from `execute`, subsequent ones from
successive `fetchMore` calls), or some client call throws. -/
inductive SqlOutcome where
  | pages (first : Page) (rest : List Page)
  | clientErr (e : RawError)

/-- Behaviour of the session client for one CL item. -/
inductive ClOutcome where
  | res (r : ClCmdResult)
  | clientErr (e : RawError)

/-- The mode branch taken for an item (line 211) together with the
client behaviour backing it. -/
inductive ItemAction where
  | sql (outcome : SqlOutcome)
  | cl (outcome : ClOutcome)

/-- One work item: its resolved parameters, the behaviour of
`connect` for the session this item would cause to be opened, and the
client behaviour for its statement. -/
structure ItemSpec where
  additional : AdditionalFields
  connectErr : Option RawError
  action : ItemAction

/-- The query-options object assembled at lines 215-231; a field is
`none` when the source leaves the property unset. -/
structure QueryOptsM where
  isTerseResults : Option Bool
  timeout : Option Nat
  parameters : Option Json

/-- A freshly constructed `new Error(m)`: name `Error`, message `m`,
string form `Error: m`. -/
def jsError (m : String) : RawError :=
  { message := some m
    name := some "Error"
    code := none
    sqlcode := none
    sqlState := none
    stack := none
    stringForm := "Error: " ++ m }

/-- Lines 215-220: the query options before parameter injection.  The
timeout is only set when `queryTimeout` is truthy and positive
(line 218); no `parameters` property is present. -/
def baseOpts (add : AdditionalFields) : QueryOptsM :=
  { isTerseResults := add.isTerseResults
    timeout :=
      match add.queryTimeout with
      | some t => if 0 < t then some t else none
      | none => none
    parameters := none }

/-- Lines 215-231: assemble the query options.  Parameters are only
parsed when `useParameters` is truthy AND `parametersJson` is truthy
(non-empty, line 221).  A parse failure or a parsed value that is not
an array/object (the `typeof parsed !== 'object' || parsed === null`
check, line 224) is rethrown as a new error whose message is prefixed
`Invalid Parameters JSON: ` (line 229). -/
def buildQueryOpts (add : AdditionalFields) : Except RawError QueryOptsM :=
  let base : QueryOptsM := baseOpts add
  if add.useParameters = some true ∧ add.parametersJson ≠ "" then
    match add.parseOutcome with
    | .parseFail m => .error (jsError ("Invalid Parameters JSON: " ++ m))
    | .parseOk v =>
        if jsTypeofIsObject v && !jsIsNull v then
          .ok { base with parameters := some v }
        else
          .error (jsError ("Invalid Parameters JSON: " ++
            "Parameters JSON must be an array or object"))
  else
    .ok base

/-- Lines 233-240: the paging loop.  `res` is the page currently held
(initially from `query.execute`); while `res.is_done` is false, the
next page is taken from `rest` (a `fetchMore` call).  Returns the
accumulated rows in order, the number of `fetchMore` calls made, and
the final page held in `res` (whose `metadata` / `update_count` feed
the output, lines 244-245).  `none` models a source that never
signals done within the supplied pages: the real loop would keep
calling `fetchMore` (a caller-visible hang). -/
def pageLoop : Page → List Page → Option (List Json × Nat × Page)
  | res, rest =>
    if res.is_done then some (res.data, 0, res)
    else
      match rest with
      | [] => none
      | p :: ps =>
        match pageLoop p ps with
        | none => none
        | some (rows, n, last) => some (res.data ++ rows, n + 1, last)

/-- Rows carried by a list of pages, in order. -/
def rowsOf (ps : List Page) : List Json :=
  ps.foldr (fun p acc => p.data ++ acc) []

/-- One record pushed onto `returnItems`: SQL aggregate payload
(lines 242-246, 255), SQL per-row payload (lines 247-253), CL payload
(lines 261-267) or the tolerated-failure payload (line 271).
Optional fields are `none` when the source omits the property. -/
inductive OutputRecord where
  | sqlAgg (rows : List Json) (metadata : Option Json) (updateCount : Option Int)
  | sqlRow (row : Json) (metadata : Option Json)
  | clRec (success : Bool) (data : Json) (message : Option String)
  | errRec (e : NormalizedError)

/-- Outcome of the `try` body for one item (lines 211-268): the
records it pushes, the raw error it throws, or a paging hang. -/
inductive ItemRes where
  | ok (recs : List OutputRecord)
  | fail (e : RawError)
  | hung

/-- Whether an item result is the paging hang. -/
def isHung : ItemRes → Bool
  | .hung => true
  | _ => false

/-- Whether an item result is a thrown error. -/
def isFail : ItemRes → Bool
  | .fail _ => true
  | _ => false

/-- Lines 211-268: the `try` body for one item.  For SQL, the query
options are assembled first (a bad parameter JSON throws before the
client is touched), then the paging loop runs and the rows are shaped
per `outputMode` / `includeMetadata` (`additional.includeMetadata !==
false`, line 243/249, and `additional.outputMode === 'perRow'`,
line 247).  For CL, the single result is shaped with `message:
res.error || null` (line 265), where `||` maps an empty string to
null. -/
def execItem (it : ItemSpec) : ItemRes :=
  match it.action with
  | .sql oc =>
    match buildQueryOpts it.additional with
    | .error e => .fail e
    | .ok _ =>
      match oc with
      | .clientErr e => .fail e
      | .pages first rest =>
        match pageLoop first rest with
        | none => .hung
        | some (rows, _, last) =>
          if it.additional.outputMode = some OutputMode.perRow then
            .ok (rows.map fun r =>
              OutputRecord.sqlRow r
                (if it.additional.includeMetadata = some false then none
                 else some last.metadata))
          else
            .ok [OutputRecord.sqlAgg rows
              (if it.additional.includeMetadata = some false then none
               else some last.metadata)
              (if it.additional.includeMetadata = some false then none
               else some last.update_count)]
  | .cl oc =>
    match oc with
    | .clientErr e => .fail e
    | .res r =>
      .ok [OutputRecord.clRec r.success r.data
        (match r.error with
         | some s => if s = "" then none else some s
         | none => none)]

/-- Instrumented run state: the records pushed so far, how many
`connect` calls succeeded (sessions opened), how many `close` calls
were made, and whether `sharedJob` holds an open session. -/
structure RunSt where
  records : List OutputRecord
  opens : Nat
  closes : Nat
  sharedOpen : Bool

/-- How a run stops early: a propagated raw error (uncaught or
rethrown at line 274) or a paging hang. -/
inductive Halt where
  | thrown (e : RawError)
  | hung

/-- The empty initial run state. -/
def initSt : RunSt :=
  { records := [], opens := 0, closes := 0, sharedOpen := false }

/-- Lines 184-195 and 209: `getJob`, called before the `try` block.
With reuse the shared session is opened lazily on first acquisition;
without reuse a fresh session is opened per item.  A `connect`
failure propagates as-is (it happens outside the `try`). -/
def connectPhase (reuse : Bool) (it : ItemSpec) (st : RunSt) :
    Except RawError RunSt :=
  if reuse then
    if st.sharedOpen then .ok st
    else
      match it.connectErr with
      | some e => .error e
      | none => .ok { st with opens := st.opens + 1, sharedOpen := true }
  else
    match it.connectErr with
    | some e => .error e
    | none => .ok { st with opens := st.opens + 1 }

/-- Lines 275-279: the `finally` block closes the per-item session
only when the connection is not shared. -/
def finallyClose (reuse : Bool) (st : RunSt) : RunSt :=
  if reuse then st else { st with closes := st.closes + 1 }

/-- Lines 210-279: `try` body plus `catch`/`finally` for one item.
On success the records are pushed and `finally` runs.  On a thrown
error: with `continueOnFail` one normalized error record is pushed
and the loop continues (line 270-273); otherwise the raw error is
rethrown (line 274) — in both cases `finally` still runs.  A paging
hang suspends before any of this. -/
def bodyPhase (cof reuse : Bool) (it : ItemSpec) (st : RunSt) :
    RunSt × Option Halt :=
  match execItem it with
  | .ok recs =>
    (finallyClose reuse { st with records := st.records ++ recs }, none)
  | .fail e =>
    if cof then
      (finallyClose reuse
        { st with records :=
            st.records ++ [OutputRecord.errRec (normalizeError e)] }, none)
    else
      (finallyClose reuse st, some (Halt.thrown e))
  | .hung => (st, some Halt.hung)

/-- One full iteration of the item loop (lines 197-280): session
acquisition (outside the `try`), then the guarded body. -/
def step (cof reuse : Bool) (it : ItemSpec) (st : RunSt) :
    RunSt × Option Halt :=
  match connectPhase reuse it st with
  | .error e => (st, some (Halt.thrown e))
  | .ok st1 => bodyPhase cof reuse it st1

/-- The item loop (lines 197-280): processes items in order, stopping
at the first halt. -/
def runLoop (cof reuse : Bool) : List ItemSpec → RunSt → RunSt × Option Halt
  | [], st => (st, none)
  | it :: rest, st =>
    match step cof reuse it st with
    | (st1, none) => runLoop cof reuse rest st1
    | (st1, some h) => (st1, some h)

/-- Lines 180-181: the run-level reuse decision, read once from the
first item's `additionalFields` (`!!additional.reuseConnection`); an
empty run falls back to the `{}` default. -/
def runReuse (items : List ItemSpec) : Bool :=
  match items with
  | [] => false
  | it :: _ => decide (it.additional.reuseConnection = some true)

/-- Lines 145-286: the whole `execute` method.  The loop runs with the
run-level reuse flag; if it completes, the shared session — when one
was opened — is closed once (lines 282-284).  If the loop halts, the
halt propagates and the post-loop close never runs. -/
def executeRun (cof : Bool) (items : List ItemSpec) : RunSt × Option Halt :=
  match runLoop cof (runReuse items) items initSt with
  | (st, none) =>
    if runReuse items && st.sharedOpen then
      ({ st with closes := st.closes + 1, sharedOpen := false }, none)
    else (st, none)
  | (st, some h) => (st, some h)

/-- Claim-side predicate: the item's parameter JSON is configured and
bad — `useParameters` on, a non-empty `parametersJson`, and a parse
outcome that is either a syntax error or a value that is neither an
array nor a (non-null) object. -/
def badParamsJson (add : AdditionalFields) : Bool :=
  if add.useParameters = some true ∧ add.parametersJson ≠ "" then
    match add.parseOutcome with
    | .parseFail _ => true
    | .parseOk v => !(jsTypeofIsObject v && !jsIsNull v)
  else false

/-- Claim-side record-count formula: one record per CL item, per
failing item and per SQL aggregate item; one record per fetched row
for a per-row SQL item. -/
def expectedRecords (it : ItemSpec) : Nat :=
  match it.action with
  | .cl _ => 1
  | .sql (.clientErr _) => 1
  | .sql (.pages first rest) =>
    if badParamsJson it.additional then 1
    else if it.additional.outputMode = some OutputMode.perRow then
      match pageLoop first rest with
      | some x => x.1.length
      | none => 0
    else 1

/-- The records one item contributes to a tolerant run: its success
records, or exactly one normalized error record on failure. -/
def itemRecs (it : ItemSpec) : List OutputRecord :=
  match execItem it with
  | .ok recs => recs
  | .fail e => [OutputRecord.errRec (normalizeError e)]
  | .hung => []

/-- Concatenated per-item contributions, in item order. -/
def runRecords (items : List ItemSpec) : List OutputRecord :=
  items.foldr (fun it acc => itemRecs it ++ acc) []

/-- Additional fields with every option left at its absent default. -/
def addDefaults : AdditionalFields :=
  { isTerseResults := none
    includeMetadata := none
    reuseConnection := none
    useParameters := none
    parametersJson := ""
    parseOutcome := ParseOutcome.parseOk Json.null
    queryTimeout := none
    outputMode := none }

/-- A raw client error used in concrete runs. -/
def errBoom : RawError :=
  { message := some "boom"
    name := some "Error"
    code := none
    sqlcode := none
    sqlState := none
    stack := none
    stringForm := "Error: boom" }

/-- An item that turns reuse on and whose SQL client call throws. -/
def itemFailShared : ItemSpec :=
  { additional := { addDefaults with reuseConnection := some true }
    connectErr := none
    action := ItemAction.sql (SqlOutcome.clientErr errBoom) }

/-- A CL item whose command succeeds. -/
def clOkItem : ItemSpec :=
  { additional := addDefaults
    connectErr := none
    action := ItemAction.cl (ClOutcome.res
      { success := true, data := Json.str "OK", error := none }) }

/-- A terminal first page carrying one row. -/
def pageDone : Page :=
  { data := [Json.num 1], is_done := true, metadata := Json.null
    update_count := 0 }

/-- A non-terminal page carrying one row. -/
def pageMore : Page :=
  { data := [Json.num 2], is_done := false, metadata := Json.null
    update_count := 0 }

/-- A terminal page carrying two rows. -/
def pageTwoRows : Page :=
  { data := [Json.num 1, Json.num 2], is_done := true
    metadata := Json.obj [("columns", Json.str "COL1")]
    update_count := 0 }

/-- Credentials with the ignore-TLS toggle set AND a CA provided. -/
def caWithIgnoreCreds : CredentialsInput :=
  { host := "ibmi.example"
    user := "U"
    password := "P"
    port := 8076
    ignoreUnauthorized := true
    ca := "-----BEGIN CERTIFICATE-----" }

/-- An SQL item with `useParameters` on and a malformed parameter
text (`JSON.parse` throws). -/
def badParamItem : ItemSpec :=
  { additional := { addDefaults with
      useParameters := some true
      parametersJson := "not-json"
      parseOutcome := ParseOutcome.parseFail "Unexpected token" }
    connectErr := none
    action := ItemAction.sql (SqlOutcome.pages pageDone []) }

/-- An SQL item in per-row output mode whose single page has two
rows. -/
def perRowItem : ItemSpec :=
  { additional := { addDefaults with outputMode := some OutputMode.perRow }
    connectErr := none
    action := ItemAction.sql (SqlOutcome.pages pageTwoRows []) }

/-- A raw failure whose `message` property is present but empty. -/
def emptyMsgRaw : RawError :=
  { message := some ""
    name := none
    code := none
    sqlcode := none
    sqlState := none
    stack := none
    stringForm := "[object Object]" }

/-- A fully populated raw failure. -/
def sampleRaw : RawError :=
  { message := some "SQL0204 not found"
    name := some "SqlError"
    code := some (ErrCode.n 42)
    sqlcode := some (ErrCode.n (-204))
    sqlState := some "42704"
    stack := some "at run"
    stringForm := "Error: SQL0204 not found" }

/-- An SQL aggregate item with metadata suppressed. -/
def aggNoMetaItem : ItemSpec :=
  { additional := { addDefaults with includeMetadata := some false }
    connectErr := none
    action := ItemAction.sql (SqlOutcome.pages pageTwoRows []) }

/-- An SQL item with `useParameters` on but an empty parameter text. -/
def emptyParamsItem : ItemSpec :=
  { additional := { addDefaults with useParameters := some true }
    connectErr := none
    action := ItemAction.sql (SqlOutcome.pages pageDone []) }

/-- A CL item that turns reuse on and succeeds. -/
def reuseClItem : ItemSpec :=
  { additional := { addDefaults with reuseConnection := some true }
    connectErr := none
    action := ItemAction.cl (ClOutcome.res
      { success := true, data := Json.str "OK", error := none }) }

lemma pageLoop_done (first : Page) (rest : List Page)
    (h : first.is_done = true) :
    pageLoop first rest = some (first.data, 0, first) := by
  unfold pageLoop
  simp [h]

lemma pageLoop_not_done (first p : Page) (ps : List Page)
    (h : first.is_done = false) :
    pageLoop first (p :: ps) =
      match pageLoop p ps with
      | none => none
      | some (rows, n, last) => some (first.data ++ rows, n + 1, last) := by
  conv_lhs => rw [pageLoop]
  simp [h]

lemma rowsOf_cons (p : Page) (ps : List Page) :
    rowsOf (p :: ps) = p.data ++ rowsOf ps := rfl

lemma pageLoop_decomp :
    ∀ (rest : List Page) (first : Page),
      (∃ p ∈ first :: rest, p.is_done = true) →
      ∃ pre p post, first :: rest = pre ++ p :: post ∧
        (∀ q ∈ pre, q.is_done = false) ∧ p.is_done = true ∧
        pageLoop first rest = some (rowsOf (pre ++ [p]), pre.length, p) := by
  intro rest
  induction rest with
  | nil =>
    intro first h
    obtain ⟨p, hp, hdone⟩ := h
    simp only [List.mem_singleton] at hp
    subst hp
    refine ⟨[], p, [], rfl, by simp, hdone, ?_⟩
    simp [pageLoop_done p [] hdone, rowsOf]
  | cons q qs ih =>
    intro first h
    by_cases hd : first.is_done
    · refine ⟨[], first, q :: qs, rfl, by simp, hd, ?_⟩
      simp [pageLoop_done first (q :: qs) hd, rowsOf]
    · have hd' : first.is_done = false := by simpa using hd
      have h' : ∃ p ∈ q :: qs, p.is_done = true := by
        obtain ⟨p, hp, hdone⟩ := h
        rcases List.mem_cons.mp hp with h0 | h0
        · subst h0; exact absurd hdone (by simp [hd'])
        · exact ⟨p, h0, hdone⟩
      obtain ⟨pre, p, post, hsplit, hpre, hp, hloop⟩ := ih q h'
      refine ⟨first :: pre, p, post, ?_, ?_, hp, ?_⟩
      · simp [hsplit]
      · intro r hr
        rcases List.mem_cons.mp hr with h0 | h0
        · subst h0; exact hd'
        · exact hpre r h0
      · rw [pageLoop_not_done first q qs hd', hloop]
        simp [rowsOf_cons]

/-- Claim C3: for every SQL item whose page sequence contains a
terminal page, the paging loop fetches exactly the pages up to and
including the first page with `is_done`, accumulating their rows in
order, makes one `fetchMore` call per non-terminal page consumed, and
when the very first page is already terminal it makes no `fetchMore`
call at all. -/
theorem c3_paging_terminates (first : Page) (rest : List Page)
    (h : (first :: rest).any Page.is_done = true) :
    (∃ pre p post, first :: rest = pre ++ p :: post ∧
       (∀ q ∈ pre, q.is_done = false) ∧ p.is_done = true ∧
       pageLoop first rest = some (rowsOf (pre ++ [p]), pre.length, p)) ∧
    (first.is_done = true →
       pageLoop first rest = some (first.data, 0, first)) := by
  refine ⟨pageLoop_decomp rest first ?_, fun hd => pageLoop_done first rest hd⟩
  simpa [List.any_eq_true] using h

/-- Witness for C3 at a concrete two-page sequence. -/
theorem c3_paging_terminates_witness :
    (∃ pre p post, pageMore :: [pageDone] = pre ++ p :: post ∧
       (∀ q ∈ pre, q.is_done = false) ∧ p.is_done = true ∧
       pageLoop pageMore [pageDone] = some (rowsOf (pre ++ [p]), pre.length, p)) ∧
    (pageMore.is_done = true →
       pageLoop pageMore [pageDone] = some (pageMore.data, 0, pageMore)) :=
  c3_paging_terminates pageMore [pageDone] rfl

lemma buildQueryOpts_bad (add : AdditionalFields)
    (h : badParamsJson add = true) :
    ∃ tail, buildQueryOpts add =
      Except.error (jsError ("Invalid Parameters JSON: " ++ tail)) := by
  by_cases hcond : add.useParameters = some true ∧ add.parametersJson ≠ ""
  · cases hp : add.parseOutcome with
    | parseFail m =>
      exact ⟨m, by simp [buildQueryOpts, hcond, hp]⟩
    | parseOk v =>
      rcases hv : (jsTypeofIsObject v && !jsIsNull v) with _ | _
      · exact ⟨"Parameters JSON must be an array or object",
          by simp [buildQueryOpts, hcond, hp, hv]⟩
      · exfalso
        unfold badParamsJson at h
        rw [if_pos hcond, hp] at h
        simp [hv] at h
  · exfalso
    unfold badParamsJson at h
    rw [if_neg hcond] at h
    simp at h

lemma buildQueryOpts_good (add : AdditionalFields)
    (h : badParamsJson add = false) :
    ∃ q, buildQueryOpts add = Except.ok q := by
  by_cases hcond : add.useParameters = some true ∧ add.parametersJson ≠ ""
  · cases hp : add.parseOutcome with
    | parseFail m =>
      exfalso
      unfold badParamsJson at h
      rw [if_pos hcond, hp] at h
      simp at h
    | parseOk v =>
      rcases hv : (jsTypeofIsObject v && !jsIsNull v) with _ | _
      · exfalso
        unfold badParamsJson at h
        rw [if_pos hcond, hp] at h
        simp [hv] at h
      · exact ⟨{ baseOpts add with parameters := some v },
          by simp [buildQueryOpts, hcond, hp, hv]⟩
  · exact ⟨baseOpts add, by simp [buildQueryOpts, hcond]⟩

/-- Claim C5: a bad parameter JSON (malformed, or parsing to a
non-array non-object value) on an SQL item raises an error whose
message carries the `Invalid Parameters JSON` marker; with failure
tolerance the item contributes exactly one error record and the loop
continues, and without tolerance the loop halts with that raw error
and the item contributes no record. -/
theorem c5_invalid_params_json (reuse : Bool) (st : RunSt) (it : ItemSpec)
    (oc : SqlOutcome)
    (ha : it.action = ItemAction.sql oc)
    (hb : badParamsJson it.additional = true) :
    ∃ e tail, execItem it = ItemRes.fail e ∧
      e.message = some ("Invalid Parameters JSON: " ++ tail) ∧
      ∀ st1, connectPhase reuse it st = Except.ok st1 →
        step true reuse it st =
          (finallyClose reuse { st1 with records :=
            st1.records ++ [OutputRecord.errRec (normalizeError e)] }, none) ∧
        step false reuse it st =
          (finallyClose reuse st1, some (Halt.thrown e)) := by
  obtain ⟨tail, hq⟩ := buildQueryOpts_bad it.additional hb
  refine ⟨jsError ("Invalid Parameters JSON: " ++ tail), tail, ?_, rfl, ?_⟩
  · cases oc <;> simp [execItem, ha, hq]
  · intro st1 h1
    have hexec : execItem it =
        ItemRes.fail (jsError ("Invalid Parameters JSON: " ++ tail)) := by
      cases oc <;> simp [execItem, ha, hq]
    constructor <;> simp [step, h1, bodyPhase, hexec]

/-- Witness for C5 at a concrete malformed-JSON item. -/
theorem c5_invalid_params_json_witness :
    ∃ e tail, execItem badParamItem = ItemRes.fail e ∧
      e.message = some ("Invalid Parameters JSON: " ++ tail) ∧
      ∀ st1, connectPhase false badParamItem initSt = Except.ok st1 →
        step true false badParamItem initSt =
          (finallyClose false { st1 with records :=
            st1.records ++ [OutputRecord.errRec (normalizeError e)] }, none) ∧
        step false false badParamItem initSt =
          (finallyClose false st1, some (Halt.thrown e)) :=
  c5_invalid_params_json false initSt badParamItem
    (SqlOutcome.pages pageDone []) rfl rfl

/-- Claim C9: a successful SQL item is shaped from the accumulated
rows; `includeMetadata = false` omits the metadata and update-count
fields, while a true or absent `includeMetadata` includes them — the
aggregate record carries rows, metadata and update count, and each
per-row record carries the row and the metadata. -/
theorem c9_sql_output_shaping (it : ItemSpec) (first : Page)
    (rest : List Page) (rows : List Json) (n : Nat) (last : Page)
    (ha : it.action = ItemAction.sql (SqlOutcome.pages first rest))
    (hb : badParamsJson it.additional = false)
    (hp : pageLoop first rest = some (rows, n, last)) :
    (it.additional.outputMode = some OutputMode.perRow →
      (it.additional.includeMetadata = some false →
        execItem it = ItemRes.ok
          (rows.map fun r => OutputRecord.sqlRow r none)) ∧
      (it.additional.includeMetadata ≠ some false →
        execItem it = ItemRes.ok
          (rows.map fun r => OutputRecord.sqlRow r (some last.metadata)))) ∧
    (it.additional.outputMode ≠ some OutputMode.perRow →
      (it.additional.includeMetadata = some false →
        execItem it = ItemRes.ok [OutputRecord.sqlAgg rows none none]) ∧
      (it.additional.includeMetadata ≠ some false →
        execItem it = ItemRes.ok [OutputRecord.sqlAgg rows
          (some last.metadata) (some last.update_count)])) := by
  obtain ⟨q, hq⟩ := buildQueryOpts_good it.additional hb
  constructor <;> intro hm <;> constructor <;> intro hi <;>
    simp [execItem, ha, hq, hp, hm, hi]

/-- Witness for C9 at a concrete aggregate item with metadata
suppressed. -/
theorem c9_sql_output_shaping_witness :
    execItem aggNoMetaItem =
      ItemRes.ok [OutputRecord.sqlAgg [Json.num 1, Json.num 2] none none] :=
  ((c9_sql_output_shaping aggNoMetaItem pageTwoRows []
      [Json.num 1, Json.num 2] 0 pageTwoRows rfl rfl rfl).2
    (by simp [aggNoMetaItem, addDefaults])).1 rfl

/-- Claim C10: with `useParameters` on but an empty `parametersJson`,
no parameter parsing occurs (the result is independent of the parse
oracle), no configuration error is raised, the submitted query
options carry no parameters field, and the item proceeds as an
unparameterized execution. -/
theorem c10_empty_parameters_json (it : ItemSpec) (first : Page)
    (rest : List Page)
    (h1 : it.additional.useParameters = some true)
    (h2 : it.additional.parametersJson = "")
    (ha : it.action = ItemAction.sql (SqlOutcome.pages first rest)) :
    (∃ q, buildQueryOpts it.additional = Except.ok q ∧
       q.parameters = none) ∧
    (∀ po, buildQueryOpts { it.additional with parseOutcome := po } =
       buildQueryOpts it.additional) ∧
    (∀ rows n last, pageLoop first rest = some (rows, n, last) →
       ∃ recs, execItem it = ItemRes.ok recs) := by
  have hcond : ¬(it.additional.useParameters = some true ∧
      it.additional.parametersJson ≠ "") := by
    intro hc
    exact hc.2 h2
  have hq : buildQueryOpts it.additional =
      Except.ok (baseOpts it.additional) := by
    simp [buildQueryOpts, hcond]
  refine ⟨⟨baseOpts it.additional, hq, rfl⟩, ?_, ?_⟩
  · intro po
    have hcond' : ¬(AdditionalFields.useParameters
        { it.additional with parseOutcome := po } = some true ∧
        AdditionalFields.parametersJson
          { it.additional with parseOutcome := po } ≠ "") := hcond
    rw [hq]
    simp [buildQueryOpts, hcond', baseOpts]
  · intro rows n last hp
    by_cases hm : it.additional.outputMode = some OutputMode.perRow
    · exact ⟨rows.map fun r => OutputRecord.sqlRow r
        (if it.additional.includeMetadata = some false then none
         else some last.metadata),
        by simp [execItem, ha, hq, hp, hm]⟩
    · exact ⟨[OutputRecord.sqlAgg rows
        (if it.additional.includeMetadata = some false then none
         else some last.metadata)
        (if it.additional.includeMetadata = some false then none
         else some last.update_count)],
        by simp [execItem, ha, hq, hp, hm]⟩

/-- Witness for C10 at a concrete empty-parameters item. -/
theorem c10_empty_parameters_json_witness :
    (∃ q, buildQueryOpts emptyParamsItem.additional = Except.ok q ∧
       q.parameters = none) ∧
    (∀ po, buildQueryOpts
        { emptyParamsItem.additional with parseOutcome := po } =
       buildQueryOpts emptyParamsItem.additional) ∧
    (∀ rows n last, pageLoop pageDone [] = some (rows, n, last) →
       ∃ recs, execItem emptyParamsItem = ItemRes.ok recs) :=
  c10_empty_parameters_json emptyParamsItem pageDone [] rfl rfl rfl

/-- Counterexample for C7: a raw failure whose `message` property is
present but empty.  The claim says the normalized message is the raw
failure's message whenever it is present; the code's `||` fallback
discards the present empty message and uses the string conversion
instead. -/
theorem c7_normalize_error_counterexample :
    emptyMsgRaw.message = some "" ∧
    (normalizeError emptyMsgRaw).message = "[object Object]" ∧
    "[object Object]" ≠ "" :=
  ⟨rfl, rfl, by decide⟩

/-- Claim C7 (amended): `normalizeError` always yields a complete
`NormalizedError`; the message is the raw failure's message when
present AND non-empty, otherwise its string conversion; the code
prefers the generic `code` field and falls back to `sqlcode`; `name`,
`sqlState` and `stack` are copied verbatim. -/
theorem c7_normalize_error (e : RawError) :
    ((e.message = none ∨ e.message = some "") →
      (normalizeError e).message = e.stringForm) ∧
    (∀ m, e.message = some m → m ≠ "" →
      (normalizeError e).message = m) ∧
    (∀ c, e.code = some c → (normalizeError e).code = some c) ∧
    (e.code = none → (normalizeError e).code = e.sqlcode) ∧
    (normalizeError e).name = e.name ∧
    (normalizeError e).sqlState = e.sqlState ∧
    (normalizeError e).stack = e.stack := by
  refine ⟨?_, ?_, ?_, ?_, rfl, rfl, rfl⟩
  · rintro (h | h) <;> simp [normalizeError, h]
  · intro m hm hne
    simp [normalizeError, hm, hne]
  · intro c hc
    simp [normalizeError, hc]
  · intro hc
    simp [normalizeError, hc]

/-- Witness for C7 at a fully populated raw failure: the non-empty
message survives and the generic code wins over the SQL code. -/
theorem c7_normalize_error_witness :
    (normalizeError sampleRaw).message = "SQL0204 not found" ∧
    (normalizeError sampleRaw).code = some (ErrCode.n 42) :=
  ⟨(c7_normalize_error sampleRaw).2.1 "SQL0204 not found" rfl (by decide),
   (c7_normalize_error sampleRaw).2.2.1 (ErrCode.n 42) rfl⟩

/-- Claim C4 evidence: the connection record is built with
`rejectUnauthorized = !ignoreUnauthorized` regardless of `ca`.  With
the ignore toggle set AND a CA provided, the session client is opened
with `rejectUnauthorized = false`: a provided CA does not force
certificate verification on, contradicting the credential field's own
description. -/
theorem c4_ca_does_not_force_verification :
    caWithIgnoreCreds.ignoreUnauthorized = true ∧
    (mkDaemonServer caWithIgnoreCreds).ca =
      some "-----BEGIN CERTIFICATE-----" ∧
    (mkDaemonServer caWithIgnoreCreds).rejectUnauthorized = false :=
  ⟨rfl, rfl, rfl⟩

/-- Claim C1 evidence: a run with `reuseConnection` enabled and a
single failing item, with failure tolerance off.  The raw failure
propagates, but the shared session — the only session this run
opened — is never closed: one `connect`, zero `close` calls, and the
shared session is still open when the error leaves the orchestrator. -/
theorem c1_shared_session_leaked :
    executeRun false [itemFailShared] =
      ({ records := [], opens := 1, closes := 0, sharedOpen := true },
        some (Halt.thrown errBoom)) := rfl

lemma connectPhase_ok_exists (reuse : Bool) (it : ItemSpec) (st : RunSt)
    (hc : it.connectErr = none) :
    ∃ st1, connectPhase reuse it st = Except.ok st1 := by
  cases reuse with
  | false =>
    exact ⟨{ st with opens := st.opens + 1 }, by simp [connectPhase, hc]⟩
  | true =>
    cases hso : st.sharedOpen with
    | true => exact ⟨st, by simp [connectPhase, hso]⟩
    | false =>
      exact ⟨{ st with opens := st.opens + 1, sharedOpen := true },
        by simp [connectPhase, hso, hc]⟩

lemma connectPhase_ok_inv (reuse : Bool) (it : ItemSpec) (st st1 : RunSt)
    (h : connectPhase reuse it st = Except.ok st1) :
    st1.records = st.records ∧ st1.closes = st.closes := by
  cases reuse with
  | false =>
    cases hc : it.connectErr with
    | some e => simp [connectPhase, hc] at h
    | none =>
      simp [connectPhase, hc] at h
      subst h
      simp
  | true =>
    cases hso : st.sharedOpen with
    | true =>
      simp [connectPhase, hso] at h
      subst h
      simp
    | false =>
      cases hc : it.connectErr with
      | some e => simp [connectPhase, hso, hc] at h
      | none =>
        simp [connectPhase, hso, hc] at h
        subst h
        simp

lemma finallyClose_records (reuse : Bool) (st : RunSt) :
    (finallyClose reuse st).records = st.records := by
  cases reuse <;> rfl

lemma runRecords_cons (it : ItemSpec) (rest : List ItemSpec) :
    runRecords (it :: rest) = itemRecs it ++ runRecords rest := rfl

lemma runLoop_completes :
    ∀ (items : List ItemSpec) (cof reuse : Bool) (st : RunSt),
      (∀ it ∈ items, execItem it ≠ ItemRes.hung) →
      (cof = true ∨ ∀ it ∈ items, ∀ e, execItem it ≠ ItemRes.fail e) →
      (∀ it ∈ items, it.connectErr = none) →
      (runLoop cof reuse items st).2 = none := by
  intro items
  induction items with
  | nil => intro cof reuse st h1 h2 h3; simp [runLoop]
  | cons it rest ih =>
    intro cof reuse st h1 h2 h3
    obtain ⟨st1, hcp⟩ :=
      connectPhase_ok_exists reuse it st (h3 it (by simp))
    have h1r : ∀ x ∈ rest, execItem x ≠ ItemRes.hung :=
      fun x hx => h1 x (by simp [hx])
    have h3r : ∀ x ∈ rest, x.connectErr = none :=
      fun x hx => h3 x (by simp [hx])
    have h2r : cof = true ∨ ∀ x ∈ rest, ∀ e, execItem x ≠ ItemRes.fail e := by
      rcases h2 with hcof | hnf
      · exact Or.inl hcof
      · exact Or.inr fun x hx => hnf x (by simp [hx])
    cases hb : execItem it with
    | ok recs =>
      simp only [runLoop, step, hcp, bodyPhase, hb]
      exact ih cof reuse _ h1r h2r h3r
    | fail e =>
      rcases h2 with hcof | hnf
      · subst hcof
        simp only [runLoop, step, hcp, bodyPhase, hb, if_true]
        exact ih true reuse _ h1r h2r h3r
      · exact absurd hb (hnf it (by simp) e)
    | hung => exact absurd hb (h1 it (by simp))

lemma runLoop_records :
    ∀ (items : List ItemSpec) (cof reuse : Bool) (st : RunSt),
      (runLoop cof reuse items st).2 = none →
      (runLoop cof reuse items st).1.records = st.records ++ runRecords items := by
  intro items
  induction items with
  | nil => intro cof reuse st h; simp [runLoop, runRecords]
  | cons it rest ih =>
    intro cof reuse st h
    rcases hcp : connectPhase reuse it st with e | st1
    · rw [runLoop, step, hcp] at h
      simp at h
    · obtain ⟨hrec, _⟩ := connectPhase_ok_inv reuse it st st1 hcp
      cases hb : execItem it with
      | ok recs =>
        rw [runLoop, step, hcp] at h ⊢
        simp only [bodyPhase, hb] at h ⊢
        rw [ih cof reuse _ h, finallyClose_records]
        simp [runRecords_cons, itemRecs, hb, hrec]
      | fail e =>
        cases cof with
        | false =>
          rw [runLoop, step, hcp] at h
          simp only [bodyPhase, hb, if_false] at h
          simp at h
        | true =>
          rw [runLoop, step, hcp] at h ⊢
          simp only [bodyPhase, hb, if_true] at h ⊢
          rw [ih true reuse _ h, finallyClose_records]
          simp [runRecords_cons, itemRecs, hb, hrec]
      | hung =>
        rw [runLoop, step, hcp] at h
        simp only [bodyPhase, hb] at h
        simp at h

lemma finallyClose_false (st : RunSt) :
    finallyClose false st = { st with closes := st.closes + 1 } := rfl

lemma finallyClose_true (st : RunSt) : finallyClose true st = st := rfl

lemma runLoop_counts_noreuse :
    ∀ (items : List ItemSpec) (cof : Bool) (st : RunSt),
      (runLoop cof false items st).2 = none →
      (runLoop cof false items st).1.opens = st.opens + items.length ∧
      (runLoop cof false items st).1.closes = st.closes + items.length ∧
      (runLoop cof false items st).1.sharedOpen = st.sharedOpen := by
  intro items
  induction items with
  | nil => intro cof st h; simp [runLoop]
  | cons it rest ih =>
    intro cof st h
    cases hc : it.connectErr with
    | some e =>
      rw [runLoop, step] at h
      simp [connectPhase, hc] at h
    | none =>
      have hcp : connectPhase false it st =
          Except.ok { st with opens := st.opens + 1 } := by
        simp [connectPhase, hc]
      cases hb : execItem it with
      | ok recs =>
        rw [runLoop, step, hcp] at h ⊢
        simp only [bodyPhase, hb] at h ⊢
        obtain ⟨i1, i2, i3⟩ := ih cof _ h
        refine ⟨?_, ?_, ?_⟩
        · rw [i1]
          show st.opens + 1 + rest.length = st.opens + (rest.length + 1)
          omega
        · rw [i2]
          show st.closes + 1 + rest.length = st.closes + (rest.length + 1)
          omega
        · rw [i3]
          rfl
      | fail e =>
        cases cof with
        | false =>
          rw [runLoop, step, hcp] at h
          simp only [bodyPhase, hb] at h
          simp at h
        | true =>
          rw [runLoop, step, hcp] at h ⊢
          simp only [bodyPhase, hb, if_true] at h ⊢
          obtain ⟨i1, i2, i3⟩ := ih true _ h
          refine ⟨?_, ?_, ?_⟩
          · rw [i1]
            show st.opens + 1 + rest.length = st.opens + (rest.length + 1)
            omega
          · rw [i2]
            show st.closes + 1 + rest.length = st.closes + (rest.length + 1)
            omega
          · rw [i3]
            rfl
      | hung =>
        rw [runLoop, step, hcp] at h
        simp only [bodyPhase, hb] at h
        simp at h

lemma runLoop_counts_reuse_open :
    ∀ (items : List ItemSpec) (cof : Bool) (st : RunSt),
      st.sharedOpen = true →
      (runLoop cof true items st).2 = none →
      (runLoop cof true items st).1.opens = st.opens ∧
      (runLoop cof true items st).1.closes = st.closes ∧
      (runLoop cof true items st).1.sharedOpen = true := by
  intro items
  induction items with
  | nil => intro cof st hso h; simpa [runLoop] using hso
  | cons it rest ih =>
    intro cof st hso h
    have hcp : connectPhase true it st = Except.ok st := by
      simp [connectPhase, hso]
    cases hb : execItem it with
    | ok recs =>
      rw [runLoop, step, hcp] at h ⊢
      simp only [bodyPhase, hb, finallyClose_true] at h ⊢
      exact ih cof _ hso h
    | fail e =>
      cases cof with
      | false =>
        rw [runLoop, step, hcp] at h
        simp only [bodyPhase, hb] at h
        simp at h
      | true =>
        rw [runLoop, step, hcp] at h ⊢
        simp only [bodyPhase, hb, if_true, finallyClose_true] at h ⊢
        exact ih true _ hso h
    | hung =>
      rw [runLoop, step, hcp] at h
      simp only [bodyPhase, hb] at h
      simp at h

lemma runLoop_counts_reuse_fresh (cof : Bool) (it : ItemSpec)
    (rest : List ItemSpec) (st : RunSt)
    (hso : st.sharedOpen = false)
    (h : (runLoop cof true (it :: rest) st).2 = none) :
    (runLoop cof true (it :: rest) st).1.opens = st.opens + 1 ∧
    (runLoop cof true (it :: rest) st).1.closes = st.closes ∧
    (runLoop cof true (it :: rest) st).1.sharedOpen = true := by
  cases hc : it.connectErr with
  | some e =>
    rw [runLoop, step] at h
    simp [connectPhase, hso, hc] at h
  | none =>
    have hcp : connectPhase true it st = Except.ok
        { st with opens := st.opens + 1, sharedOpen := true } := by
      simp [connectPhase, hso, hc]
    cases hb : execItem it with
    | ok recs =>
      rw [runLoop, step, hcp] at h ⊢
      simp only [bodyPhase, hb, finallyClose_true] at h ⊢
      exact runLoop_counts_reuse_open rest cof _ rfl h
    | fail e =>
      cases cof with
      | false =>
        rw [runLoop, step, hcp] at h
        simp only [bodyPhase, hb] at h
        simp at h
      | true =>
        rw [runLoop, step, hcp] at h ⊢
        simp only [bodyPhase, hb, if_true, finallyClose_true] at h ⊢
        exact runLoop_counts_reuse_open rest true _ rfl h
    | hung =>
      rw [runLoop, step, hcp] at h
      simp only [bodyPhase, hb] at h
      simp at h

lemma runLoop_append :
    ∀ (xs : List ItemSpec) (ys : List ItemSpec) (cof reuse : Bool)
      (st : RunSt),
      runLoop cof reuse (xs ++ ys) st =
        match runLoop cof reuse xs st with
        | (st1, none) => runLoop cof reuse ys st1
        | (st1, some h) => (st1, some h) := by
  intro xs
  induction xs with
  | nil => intro ys cof reuse st; simp [runLoop]
  | cons it rest ih =>
    intro ys cof reuse st
    rcases hs : step cof reuse it st with ⟨st1, halt⟩
    cases halt with
    | none =>
      rw [List.cons_append, runLoop, hs, runLoop, hs]
      exact ih ys cof reuse st1
    | some hh =>
      rw [List.cons_append, runLoop, hs, runLoop, hs]

lemma runLoop_prefix_done (cof reuse : Bool) (items : List ItemSpec)
    (st : RunSt) (k : Nat)
    (h : (runLoop cof reuse items st).2 = none) :
    (runLoop cof reuse (items.take k) st).2 = none := by
  have happ := runLoop_append (items.take k) (items.drop k) cof reuse st
  rw [List.take_append_drop] at happ
  rcases hr : runLoop cof reuse (items.take k) st with ⟨st1, halt⟩
  cases halt with
  | none => rfl
  | some hh =>
    rw [hr] at happ
    rw [happ] at h
    simp at h

lemma not_hung_of_flag (r : ItemRes) (h : (!isHung r) = true) :
    r ≠ ItemRes.hung := by
  cases r with
  | ok recs => exact fun hh => ItemRes.noConfusion hh
  | fail e => exact fun hh => ItemRes.noConfusion hh
  | hung => simp [isHung] at h

lemma not_fail_of_flag (r : ItemRes) (h : (!isFail r) = true) :
    ∀ e, r ≠ ItemRes.fail e := by
  cases r with
  | ok recs => exact fun e hh => ItemRes.noConfusion hh
  | fail e0 => simp [isFail] at h
  | hung => exact fun e hh => ItemRes.noConfusion hh

lemma itemRecs_length (it : ItemSpec) (h : execItem it ≠ ItemRes.hung) :
    (itemRecs it).length = expectedRecords it := by
  cases ha : it.action with
  | cl oc =>
    cases oc with
    | res r =>
      have hexec : execItem it = ItemRes.ok
          [OutputRecord.clRec r.success r.data
            (match r.error with
             | some s => if s = "" then none else some s
             | none => none)] := by
        simp [execItem, ha]
      simp [itemRecs, expectedRecords, ha, hexec]
    | clientErr e =>
      have hexec : execItem it = ItemRes.fail e := by
        simp [execItem, ha]
      simp [itemRecs, expectedRecords, ha, hexec]
  | sql oc =>
    rcases hbp : badParamsJson it.additional with _ | _
    · obtain ⟨q, hq⟩ := buildQueryOpts_good it.additional hbp
      cases oc with
      | clientErr e =>
        have hexec : execItem it = ItemRes.fail e := by
          simp [execItem, ha, hq]
        simp [itemRecs, expectedRecords, ha, hexec]
      | pages first rest =>
        cases hp : pageLoop first rest with
        | none =>
          have hexec : execItem it = ItemRes.hung := by
            simp [execItem, ha, hq, hp]
          exact absurd hexec h
        | some x =>
          rcases x with ⟨rows, n, last⟩
          by_cases hm : it.additional.outputMode = some OutputMode.perRow
          · have hexec : execItem it = ItemRes.ok
                (rows.map fun r => OutputRecord.sqlRow r
                  (if it.additional.includeMetadata = some false then none
                   else some last.metadata)) := by
              simp [execItem, ha, hq, hp, hm]
            simp [itemRecs, expectedRecords, ha, hexec, hbp, hm, hp]
          · have hexec : execItem it = ItemRes.ok
                [OutputRecord.sqlAgg rows
                  (if it.additional.includeMetadata = some false then none
                   else some last.metadata)
                  (if it.additional.includeMetadata = some false then none
                   else some last.update_count)] := by
              simp [execItem, ha, hq, hp, hm]
            simp [itemRecs, expectedRecords, ha, hexec, hbp, hm]
    · obtain ⟨tail, hq⟩ := buildQueryOpts_bad it.additional hbp
      cases oc with
      | clientErr e =>
        have hexec : execItem it =
            ItemRes.fail (jsError ("Invalid Parameters JSON: " ++ tail)) := by
          simp [execItem, ha, hq]
        simp [itemRecs, expectedRecords, ha, hexec]
      | pages first rest =>
        have hexec : execItem it =
            ItemRes.fail (jsError ("Invalid Parameters JSON: " ++ tail)) := by
          simp [execItem, ha, hq]
        simp [itemRecs, expectedRecords, ha, hexec, hbp]

lemma runRecords_length (items : List ItemSpec)
    (h : ∀ it ∈ items, execItem it ≠ ItemRes.hung) :
    (runRecords items).length = (items.map expectedRecords).sum := by
  induction items with
  | nil => simp [runRecords]
  | cons it rest ih =>
    simp only [runRecords_cons, List.length_append, List.map_cons,
      List.sum_cons]
    rw [itemRecs_length it (h it (by simp)),
      ih (fun x hx => h x (by simp [hx]))]

lemma executeRun_of_done (cof : Bool) (items : List ItemSpec)
    (h : (runLoop cof (runReuse items) items initSt).2 = none) :
    (executeRun cof items).2 = none ∧
    (executeRun cof items).1.records =
      (runLoop cof (runReuse items) items initSt).1.records ∧
    (executeRun cof items).1.opens =
      (runLoop cof (runReuse items) items initSt).1.opens ∧
    (executeRun cof items).1.closes =
      (if (runReuse items &&
            (runLoop cof (runReuse items) items initSt).1.sharedOpen) = true
       then (runLoop cof (runReuse items) items initSt).1.closes + 1
       else (runLoop cof (runReuse items) items initSt).1.closes) := by
  rcases hR : runLoop cof (runReuse items) items initSt with ⟨st, halt⟩
  rw [hR] at h
  cases halt with
  | some hh => simp at h
  | none =>
    simp only [executeRun, hR]
    rcases hcond : (runReuse items && st.sharedOpen) with _ | _
    · simp [hcond]
    · simp [hcond]

lemma executeRun_done_loop (cof : Bool) (items : List ItemSpec)
    (hdone : (executeRun cof items).2 = none) :
    (runLoop cof (runReuse items) items initSt).2 = none := by
  rcases hR : runLoop cof (runReuse items) items initSt with ⟨st, halt⟩
  cases halt with
  | none => rfl
  | some h =>
    exfalso
    unfold executeRun at hdone
    rw [hR] at hdone
    simp at hdone

/-- Claim C2: for every run that completes, `reuseConnection = true`
opens exactly one session (lazily, with the first item) and closes it
exactly once after the loop — the loop itself closes nothing — while
`reuseConnection = false` opens exactly one session per item and
closes each immediately, so that after every prefix of items the
number of closes equals the number of opens. -/
theorem c2_session_lifecycle (cof : Bool) (items : List ItemSpec)
    (hdone : (executeRun cof items).2 = none) :
    (runReuse items = true →
      (executeRun cof items).1.opens = 1 ∧
      (executeRun cof items).1.closes = 1 ∧
      (runLoop cof true items initSt).1.closes = 0) ∧
    (runReuse items = false →
      (executeRun cof items).1.opens = items.length ∧
      (executeRun cof items).1.closes = items.length ∧
      ∀ k, (runLoop cof false (items.take k) initSt).1.closes =
        (runLoop cof false (items.take k) initSt).1.opens) := by
  have hloop := executeRun_done_loop cof items hdone
  obtain ⟨d1, d2, d3, d4⟩ := executeRun_of_done cof items hloop
  constructor
  · intro hr
    cases items with
    | nil => simp [runReuse] at hr
    | cons it rest =>
      rw [hr] at hloop d3 d4
      obtain ⟨i1, i2, i3⟩ :=
        runLoop_counts_reuse_fresh cof it rest initSt rfl hloop
      rw [i3] at d4
      simp only [Bool.and_true] at d4
      simp only [if_true] at d4
      refine ⟨?_, ?_, ?_⟩
      · rw [d3, i1]
        rfl
      · rw [d4, i2]
        rfl
      · rw [i2]
        rfl
  · intro hr
    rw [hr] at hloop d3 d4
    obtain ⟨i1, i2, i3⟩ := runLoop_counts_noreuse items cof initSt hloop
    refine ⟨?_, ?_, ?_⟩
    · rw [d3, i1]
      simp [initSt]
    · simp only [Bool.false_and] at d4
      rw [if_neg (by simp)] at d4
      rw [d4, i2]
      simp [initSt]
    · intro k
      have hpre := runLoop_prefix_done cof false items initSt k hloop
      obtain ⟨p1, p2, p3⟩ := runLoop_counts_noreuse (items.take k) cof initSt hpre
      rw [p1, p2]
      rfl

/-- Witness for C2: a completed single-item reuse run opens and
closes exactly one session; a completed two-item non-reuse run opens
and closes exactly two. -/
theorem c2_session_lifecycle_witness :
    ((executeRun true [reuseClItem]).1.opens = 1 ∧
     (executeRun true [reuseClItem]).1.closes = 1) ∧
    ((executeRun true [clOkItem, clOkItem]).1.opens =
       List.length [clOkItem, clOkItem] ∧
     (executeRun true [clOkItem, clOkItem]).1.closes =
       List.length [clOkItem, clOkItem]) :=
  ⟨⟨((c2_session_lifecycle true [reuseClItem] rfl).1 rfl).1,
    ((c2_session_lifecycle true [reuseClItem] rfl).1 rfl).2.1⟩,
   ⟨((c2_session_lifecycle true [clOkItem, clOkItem] rfl).2 rfl).1,
    ((c2_session_lifecycle true [clOkItem, clOkItem] rfl).2 rfl).2.1⟩⟩

/-- Claim C6: for a run whose items all terminate and connect, and
which either tolerates failures or has none, the run completes and
the number of output records is the sum over items of: one per CL or
SQL aggregate item, one per tolerated failure, and one per fetched
row for per-row SQL items. -/
theorem c6_output_record_counts (cof : Bool) (items : List ItemSpec)
    (h1 : (items.all fun it => !isHung (execItem it)) = true)
    (h2 : (cof || items.all fun it => !isFail (execItem it)) = true)
    (h3 : (items.all fun it => it.connectErr.isNone) = true) :
    (executeRun cof items).2 = none ∧
    (executeRun cof items).1.records.length =
      (items.map expectedRecords).sum := by
  have h1' : ∀ it ∈ items, execItem it ≠ ItemRes.hung := by
    intro it hit
    exact not_hung_of_flag _ (by simpa using List.all_eq_true.mp h1 it hit)
  have h3' : ∀ it ∈ items, it.connectErr = none := by
    intro it hit
    have hx := List.all_eq_true.mp h3 it hit
    simpa [Option.isNone_iff_eq_none] using hx
  have h2' : cof = true ∨ ∀ it ∈ items, ∀ e, execItem it ≠ ItemRes.fail e := by
    have h2b : cof = true ∨
        (items.all fun it => !isFail (execItem it)) = true := by
      simpa using h2
    rcases h2b with hc | hall
    · exact Or.inl hc
    · exact Or.inr fun it hit =>
        not_fail_of_flag _ (by simpa using List.all_eq_true.mp hall it hit)
  have hloop := runLoop_completes items cof (runReuse items) initSt h1' h2' h3'
  obtain ⟨d1, d2, _, _⟩ := executeRun_of_done cof items hloop
  refine ⟨d1, ?_⟩
  rw [d2, runLoop_records items cof (runReuse items) initSt hloop]
  simp [initSt, runRecords_length items h1']

/-- Witness for C6: a CL item plus a two-row per-row SQL item yield
three records in a completed tolerant run. -/
theorem c6_output_record_counts_witness :
    (executeRun true [clOkItem, perRowItem]).2 = none ∧
    (executeRun true [clOkItem, perRowItem]).1.records.length =
      (([clOkItem, perRowItem]).map expectedRecords).sum :=
  c6_output_record_counts true [clOkItem, perRowItem] rfl rfl rfl

/-- Counterexample for C8: a completed tolerant run over ONE per-row
SQL item yields TWO output records (one per row), so an item does not
always yield exactly one output record. -/
theorem c8_per_row_counterexample :
    (executeRun true [perRowItem]).2 = none ∧
    List.length [perRowItem] = 1 ∧
    (executeRun true [perRowItem]).1.records.length = 2 :=
  ⟨rfl, rfl, rfl⟩

/-- Claim C8 (amended): a tolerant run whose items all terminate and
connect never aborts early, and its output is exactly the
concatenation of the per-item contributions — one error record per
failed item, one record per successful CL or SQL aggregate item, and
one record per fetched row for per-row SQL items. -/
theorem c8_tolerant_run_records (items : List ItemSpec)
    (h1 : (items.all fun it => !isHung (execItem it)) = true)
    (h3 : (items.all fun it => it.connectErr.isNone) = true) :
    (executeRun true items).2 = none ∧
    (executeRun true items).1.records = runRecords items := by
  have h1' : ∀ it ∈ items, execItem it ≠ ItemRes.hung := by
    intro it hit
    exact not_hung_of_flag _ (by simpa using List.all_eq_true.mp h1 it hit)
  have h3' : ∀ it ∈ items, it.connectErr = none := by
    intro it hit
    have hx := List.all_eq_true.mp h3 it hit
    simpa [Option.isNone_iff_eq_none] using hx
  have hloop := runLoop_completes items true (runReuse items) initSt h1'
    (Or.inl rfl) h3'
  obtain ⟨d1, d2, _, _⟩ := executeRun_of_done true items hloop
  refine ⟨d1, ?_⟩
  rw [d2, runLoop_records items true (runReuse items) initSt hloop]
  simp [initSt]

/-- Witness for C8: a failing item followed by a succeeding CL item —
the run does not abort and emits the error record then the CL
record. -/
theorem c8_tolerant_run_records_witness :
    (executeRun true [badParamItem, clOkItem]).2 = none ∧
    (executeRun true [badParamItem, clOkItem]).1.records =
      runRecords [badParamItem, clOkItem] :=
  c8_tolerant_run_records [badParamItem, clOkItem] rfl rfl
